import Mathlib

set_option maxHeartbeats 1000000

/-!
Shallow embedding of the TODCO safety-monitor dashboard (`app.py`) and
verification of its specification.

The embedding covers, translated from the source:

* the byte-level base64 codec used by the resolver's step-6 unwrap
  (`base64.b64encode` / `base64.b64decode` on ASCII data);
* the Verint attachment resolver `fetch_verint_image`, modelled as a pure
  function of an explicit HTTP environment plus the wrapper URL, returning
  the resolved bytes together with the trace of attempted network requests;
* the media classifier `get_image_content`;
* the feed-assembly loop (duplicate filtering and media gating);
* the data fetch `get_data` with its client-side haversine re-validation,
  where the floating-point transcendental functions are abstracted as an
  explicit operations record.

Bytes are `Nat` values below 256; Python strings are Lean `String` /
`List Char`; fallible steps return `Option`.
-/

/-! ## Base64 codec (model of Python `base64.b64encode` / `base64.b64decode`) -/

/-- The standard base64 alphabet, index `i` holding the digit of value `i`. -/
def b64Table : List Char :=
  ['A','B','C','D','E','F','G','H','I','J','K','L','M','N','O','P',
   'Q','R','S','T','U','V','W','X','Y','Z','a','b','c','d','e','f',
   'g','h','i','j','k','l','m','n','o','p','q','r','s','t','u','v',
   'w','x','y','z','0','1','2','3','4','5','6','7','8','9','+','/']

/-- Character of a six-bit value (defaulting to `A`, never hit for values below 64). -/
def encodeChar (n : Nat) : Char := b64Table.getD n 'A'

/-- Six-bit value of an alphabet character, `none` for non-alphabet characters. -/
def decodeChar (c : Char) : Option Nat := b64Table.findIdx? (fun a => a == c)

/-- Standard base64 encoding of a byte list, with `=` padding, three bytes
to four characters. -/
def b64encode : List Nat → List Char
  | [] => []
  | [b0] => [encodeChar (b0 / 4), encodeChar (b0 % 4 * 16), '=', '=']
  | [b0, b1] => [encodeChar (b0 / 4), encodeChar (b0 % 4 * 16 + b1 / 16),
                 encodeChar (b1 % 16 * 4), '=']
  | b0 :: b1 :: b2 :: rest =>
      encodeChar (b0 / 4) :: encodeChar (b0 % 4 * 16 + b1 / 16) ::
      encodeChar (b1 % 16 * 4 + b2 / 64) :: encodeChar (b2 % 64) :: b64encode rest

/-- Characters `base64.b64decode` keeps (with `validate=False` it discards any
character outside the alphabet and padding before decoding). -/
def keepB64 (c : Char) : Bool := (decodeChar c).isSome || c == '='

/-- Decode base64 four-character groups, padding allowed only in a final group;
`none` models `binascii.Error`. -/
def decodeGroups : List Char → Option (List Nat)
  | [] => some []
  | c0 :: c1 :: c2 :: c3 :: rest =>
    match decodeChar c0, decodeChar c1 with
    | some n0, some n1 =>
      if c2 == '=' then
        if c3 == '=' && rest.isEmpty then some [n0 * 4 + n1 / 16] else none
      else
        match decodeChar c2 with
        | some n2 =>
          if c3 == '=' then
            if rest.isEmpty then some [n0 * 4 + n1 / 16, n1 % 16 * 16 + n2 / 4]
            else none
          else
            match decodeChar c3 with
            | some n3 =>
              match decodeGroups rest with
              | some tail =>
                  some ((n0 * 4 + n1 / 16) :: (n1 % 16 * 16 + n2 / 4) ::
                        (n2 % 4 * 64 + n3) :: tail)
              | none => none
            | none => none
        | none => none
    | _, _ => none
  | _ => none

/-- Model of `base64.b64decode` (default `validate=False`): discard foreign
characters, then decode; `none` models a raised `binascii.Error`. -/
def b64decodeChars (s : List Char) : Option (List Nat) :=
  decodeGroups (s.filter keepB64)

/-- Model of Python `str.split(sep)` for a single-character separator,
at the character-list level. -/
def splitOnChar (c : Char) : List Char → List (List Char)
  | [] => [[]]
  | a :: rest =>
    if a == c then [] :: splitOnChar c rest
    else
      match splitOnChar c rest with
      | [] => [[a]]
      | g :: gs => (a :: g) :: gs

/-- Step-6 unwrap of the base64 payload, translated from `fetch_verint_image`:
`if "," in b64_data: b64_data = b64_data.split(",")[1]` then `b64decode`. -/
def unwrapB64 (chars : List Char) : Option (List Nat) :=
  let payload := if chars.any (fun c => c == ',') then
      (splitOnChar ',' chars).getD 1 []
    else chars
  b64decodeChars payload

/-! ### Base64 lemmas -/

theorem decodeChar_encodeChar : ∀ n, n < 64 → decodeChar (encodeChar n) = some n := by
  decide

theorem keepB64_encodeChar : ∀ n, n < 64 → keepB64 (encodeChar n) = true := by
  decide

theorem encodeChar_ne_pad : ∀ n, n < 64 → (encodeChar n == '=') = false := by
  decide

theorem encodeChar_ne_comma : ∀ n, n < 64 → (encodeChar n == ',') = false := by
  decide

theorem keepB64_mem_b64encode :
    ∀ (b : List Nat), (∀ x ∈ b, x < 256) → ∀ c ∈ b64encode b, keepB64 c = true := by
  intro b
  induction b using b64encode.induct with
  | case1 =>
    intro _ c hc
    simp [b64encode] at hc
  | case2 b0 =>
    intro h c hc
    have hb0 : b0 < 256 := h b0 (by simp)
    simp only [b64encode, List.mem_cons, List.not_mem_nil, or_false] at hc
    rcases hc with rfl | rfl | rfl | rfl
    · exact keepB64_encodeChar _ (by omega)
    · exact keepB64_encodeChar _ (by omega)
    · rfl
    · rfl
  | case3 b0 b1 =>
    intro h c hc
    have hb0 : b0 < 256 := h b0 (by simp)
    have hb1 : b1 < 256 := h b1 (by simp)
    simp only [b64encode, List.mem_cons, List.not_mem_nil, or_false] at hc
    rcases hc with rfl | rfl | rfl | rfl
    · exact keepB64_encodeChar _ (by omega)
    · exact keepB64_encodeChar _ (by omega)
    · exact keepB64_encodeChar _ (by omega)
    · rfl
  | case4 b0 b1 b2 rest ih =>
    intro h c hc
    have hb0 : b0 < 256 := h b0 (by simp)
    have hb1 : b1 < 256 := h b1 (by simp)
    have hb2 : b2 < 256 := h b2 (by simp)
    simp only [b64encode, List.mem_cons] at hc
    rcases hc with rfl | rfl | rfl | rfl | hc
    · exact keepB64_encodeChar _ (by omega)
    · exact keepB64_encodeChar _ (by omega)
    · exact keepB64_encodeChar _ (by omega)
    · exact keepB64_encodeChar _ (by omega)
    · exact ih (fun x hx => h x (by simp [hx])) c hc

theorem filter_keepB64_b64encode (b : List Nat) (h : ∀ x ∈ b, x < 256) :
    (b64encode b).filter keepB64 = b64encode b :=
  List.filter_eq_self.mpr (keepB64_mem_b64encode b h)

theorem decodeGroups_b64encode :
    ∀ (b : List Nat), (∀ x ∈ b, x < 256) → decodeGroups (b64encode b) = some b := by
  intro b
  induction b using b64encode.induct with
  | case1 =>
    intro _
    rfl
  | case2 b0 =>
    intro h
    have hb0 : b0 < 256 := h b0 (by simp)
    simp only [b64encode, decodeGroups,
      decodeChar_encodeChar _ (show b0 / 4 < 64 by omega),
      decodeChar_encodeChar _ (show b0 % 4 * 16 < 64 by omega)]
    simp
    omega
  | case3 b0 b1 =>
    intro h
    have hb0 : b0 < 256 := h b0 (by simp)
    have hb1 : b1 < 256 := h b1 (by simp)
    simp only [b64encode, decodeGroups,
      decodeChar_encodeChar _ (show b0 / 4 < 64 by omega),
      decodeChar_encodeChar _ (show b0 % 4 * 16 + b1 / 16 < 64 by omega),
      decodeChar_encodeChar _ (show b1 % 16 * 4 < 64 by omega),
      encodeChar_ne_pad _ (show b1 % 16 * 4 < 64 by omega)]
    simp
    refine ⟨by omega, by omega⟩
  | case4 b0 b1 b2 rest ih =>
    intro h
    have hb0 : b0 < 256 := h b0 (by simp)
    have hb1 : b1 < 256 := h b1 (by simp)
    have hb2 : b2 < 256 := h b2 (by simp)
    have htail := ih (fun x hx => h x (by simp [hx]))
    simp only [b64encode, decodeGroups,
      decodeChar_encodeChar _ (show b0 / 4 < 64 by omega),
      decodeChar_encodeChar _ (show b0 % 4 * 16 + b1 / 16 < 64 by omega),
      decodeChar_encodeChar _ (show b1 % 16 * 4 + b2 / 64 < 64 by omega),
      decodeChar_encodeChar _ (show b2 % 64 < 64 by omega),
      encodeChar_ne_pad _ (show b1 % 16 * 4 + b2 / 64 < 64 by omega),
      encodeChar_ne_pad _ (show b2 % 64 < 64 by omega), htail]
    simp only [Bool.false_eq_true, if_false, Option.some.injEq, List.cons.injEq,
      and_true, true_and]
    omega

theorem b64decode_b64encode (b : List Nat) (h : ∀ x ∈ b, x < 256) :
    b64decodeChars (b64encode b) = some b := by
  rw [b64decodeChars, filter_keepB64_b64encode b h, decodeGroups_b64encode b h]

theorem comma_not_mem_b64encode (b : List Nat) (h : ∀ x ∈ b, x < 256) :
    ',' ∉ b64encode b := by
  intro hmem
  have hk := keepB64_mem_b64encode b h ',' hmem
  exact absurd hk (by decide)

theorem splitOnChar_ne_nil (c : Char) : ∀ l, splitOnChar c l ≠ [] := by
  intro l
  induction l with
  | nil => simp [splitOnChar]
  | cons a rest ih =>
    simp only [splitOnChar]
    by_cases hac : (a == c) = true
    · simp [hac]
    · simp only [hac]
      cases hsp : splitOnChar c rest with
      | nil => exact absurd hsp ih
      | cons g gs => simp

theorem splitOnChar_no_sep (c : Char) :
    ∀ l, c ∉ l → splitOnChar c l = [l] := by
  intro l
  induction l with
  | nil => intro _; rfl
  | cons a rest ih =>
    intro hmem
    have ha : (a == c) = false := by
      simp only [List.mem_cons, not_or] at hmem
      simp [beq_iff_eq]
      exact fun hh => hmem.1 hh.symm
    have hrest : c ∉ rest := by
      simp only [List.mem_cons, not_or] at hmem
      exact hmem.2
    simp [splitOnChar, ha, ih hrest]

theorem splitOnChar_append (c : Char) :
    ∀ p e, c ∉ p → splitOnChar c (p ++ c :: e) = p :: splitOnChar c e := by
  intro p
  induction p with
  | nil =>
    intro e _
    simp [splitOnChar]
  | cons a rest ih =>
    intro e hmem
    have ha : (a == c) = false := by
      simp only [List.mem_cons, not_or] at hmem
      simp [beq_iff_eq]
      exact fun hh => hmem.1 hh.symm
    have hrest : c ∉ rest := by
      simp only [List.mem_cons, not_or] at hmem
      exact hmem.2
    simp only [List.cons_append, splitOnChar, ha, Bool.false_eq_true, if_false]
    have ih2 : splitOnChar c (rest.append (c :: e)) = rest :: splitOnChar c e := ih e hrest
    rw [ih2]

theorem unwrapB64_encode (p : List Char) (b : List Nat)
    (hp : ',' ∉ p) (hb : ∀ x ∈ b, x < 256) :
    unwrapB64 (p ++ ',' :: b64encode b) = some b := by
  have hany : (p ++ ',' :: b64encode b).any (fun c => c == ',') = true := by
    simp [List.any_append]
  rw [unwrapB64]
  simp only [hany, if_true]
  rw [splitOnChar_append ',' p (b64encode b) hp,
    splitOnChar_no_sep ',' (b64encode b) (comma_not_mem_b64encode b hb)]
  simp only [List.getD, List.get?_eq_getElem?, List.getElem?_cons_succ,
    List.getElem?_cons_zero, Option.getD_some]
  exact b64decode_b64encode b hb

example : unwrapB64 ("data:image/jpeg;base64".toList ++ ',' :: b64encode [137, 80, 78]) =
    some [137, 80, 78] := by decide

/-! ## String and URL helpers (models of the Python operations used)

Core `String` operations are re-implemented over `List Char` so that every
definition evaluates by kernel reduction on concrete inputs. -/

/-- Whether `p` is a prefix of the second list (needle first). -/
def startsWithChars : List Char → List Char → Bool
  | [], _ => true
  | _ :: _, [] => false
  | p :: ps, c :: cs => p == c && startsWithChars ps cs

/-- Whether `needle` occurs inside the second list. -/
def containsChars (needle : List Char) : List Char → Bool
  | [] => needle.isEmpty
  | c :: rest => startsWithChars needle (c :: rest) || containsChars needle rest

/-- Model of the Python substring test `needle in hay`. -/
def strContains (hay needle : String) : Bool :=
  containsChars needle.toList hay.toList

/-- Suffix test over character lists. -/
def endsWithChars (suf l : List Char) : Bool :=
  startsWithChars suf.reverse l.reverse

/-- Model of Python `s.endswith(suf)`. -/
def pyEndsWith (s suf : String) : Bool := endsWithChars suf.toList s.toList

/-- Model of Python `s.lower()` (ASCII input). -/
def lowerStr (s : String) : String := String.mk (s.toList.map Char.toLower)

/-- Model of Python `s.strip()`. -/
def trimStr (s : String) : String :=
  String.mk (((s.toList.dropWhile Char.isWhitespace).reverse.dropWhile
    Char.isWhitespace).reverse)

/-- Model of Python `s.split(sep)` for the single-character separators used. -/
def pySplit (sep : Char) (s : String) : List String :=
  (splitOnChar sep s.toList).map (fun g => String.mk g)

/-- Join groups with a separator character (inverse of `splitOnChar`). -/
def joinChar (c : Char) : List (List Char) → List Char
  | [] => []
  | [g] => g
  | g :: gs => g ++ c :: joinChar c gs

/-- First binding of a key in an association list (as a Python dict lookup
on a dict built first-binding-wins by `parse_qs` list appends read at `[0]`). -/
def lookupStr (k : String) : List (String × String) → Option String
  | [] => none
  | (a, v) :: rest => if a = k then some v else lookupStr k rest

/-- Query string of a URL: everything after the first `?` once the fragment
is removed, as computed by `urllib.parse.urlparse`. -/
def queryOf (url : String) : String :=
  match splitOnChar '?' ((splitOnChar '#' url.toList).headD []) with
  | [] => ""
  | [_] => ""
  | _ :: rest => String.mk (joinChar '?' rest)

/-- Model of `urllib.parse.parse_qs` with its default arguments: pairs split
on `&`, split once on `=`, blank values dropped (the URLs exercised here
contain no percent escapes, so unquoting is the identity). -/
def parseQsPairs (q : String) : List (String × String) :=
  (splitOnChar '&' q.toList).filterMap fun nv =>
    match splitOnChar '=' nv with
    | [] => none
    | [_] => none
    | name :: rest =>
      let value := joinChar '=' rest
      if value.isEmpty then none else some (String.mk name, String.mk value)

/-- Step A of `fetch_verint_image`:
`parse_qs(urlparse(wrapper_url).query).get('caseid', [None])[0]`. -/
def getCaseidParam (url : String) : Option String :=
  lookupStr "caseid" (parseQsPairs (queryOf url))

/-! ## Secret extraction (models of the step-2 regular expressions) -/

/-- Match a literal character sequence, returning the remaining characters. -/
def dropLit : List Char → List Char → Option (List Char)
  | [], l => some l
  | _ :: _, [] => none
  | p :: ps, c :: cs => if c = p then dropLit ps cs else none

/-- Split at the first `"` character: the run of non-quote characters and
what follows the closing quote (the regex fragment `([^"]*)"`). -/
def splitAtQuote : List Char → Option (List Char × List Char)
  | [] => none
  | c :: cs =>
    if c = '"' then some ([], cs)
    else
      match splitAtQuote cs with
      | some (cap, rest) => some (c :: cap, rest)
      | none => none

/-- Attempt to match `"formref"\s*:\s*"([^"]+)"` at the head of the list. -/
def matchFormrefAt (l : List Char) : Option (List Char) :=
  match dropLit "\"formref\"".toList l with
  | none => none
  | some l1 =>
    match dropLit [':'] (l1.dropWhile Char.isWhitespace) with
    | none => none
    | some l2 =>
      match dropLit ['"'] (l2.dropWhile Char.isWhitespace) with
      | none => none
      | some l3 =>
        match splitAtQuote l3 with
        | none => none
        | some (cap, _) => if cap.isEmpty then none else some cap

/-- Leftmost match of the `formref` pattern, as `re.search`. -/
def searchFormref : List Char → Option (List Char)
  | [] => none
  | c :: cs =>
    match matchFormrefAt (c :: cs) with
    | some cap => some cap
    | none => searchFormref cs

/-- String wrapper for the `formref` search. -/
def searchFormrefStr (s : String) : Option String :=
  (searchFormref s.toList).map fun l => String.mk l

/-- Attempt to match `name="_csrf_token"\s+content="([^"]+)"` at the head
of the list (`\s+` asks for at least one whitespace character). -/
def matchCsrfAt (l : List Char) : Option (List Char) :=
  match dropLit "name=\"_csrf_token\"".toList l with
  | none => none
  | some l1 =>
    match l1 with
    | [] => none
    | c :: _ =>
      if c.isWhitespace then
        match dropLit "content=\"".toList (l1.dropWhile Char.isWhitespace) with
        | none => none
        | some l2 =>
          match splitAtQuote l2 with
          | none => none
          | some (cap, _) => if cap.isEmpty then none else some cap
      else none

/-- Leftmost match of the CSRF pattern, as `re.search`. -/
def searchCsrf : List Char → Option (List Char)
  | [] => none
  | c :: cs =>
    match matchCsrfAt (c :: cs) with
    | some cap => some cap
    | none => searchCsrf cs

/-- String wrapper for the CSRF search. -/
def searchCsrfStr (s : String) : Option String :=
  (searchCsrf s.toList).map fun l => String.mk l

/-! ## The attachment resolver (`fetch_verint_image`) -/

/-- Minimal JSON value model: the resolver reads only string fields from
nested objects; every other JSON shape is `jother`. -/
inductive JVal where
  | jstr (s : String)
  | jobj (fields : List (String × JVal))
  | jother

/-- First binding of a key among a JSON object's fields. -/
def lookupField : List (String × JVal) → String → Option JVal
  | [], _ => none
  | (a, v) :: rest, k => if a = k then some v else lookupField rest k

/-- Field access on a JSON object (`d[k]` guarded by `k in d`): first
binding of the key, `none` for missing keys or non-object values. -/
def JVal.getField : JVal → String → Option JVal
  | JVal.jobj fields, k => lookupField fields k
  | _, _ => none

/-- Response to the step-1 page GET. -/
structure PageResp where
  status : Nat
  finalUrl : String
  textBody : String

/-- Response to one of the JSON API POSTs; `body = none` models a body that
`Response.json()` fails to parse — in particular raw binary content. -/
structure ApiResp where
  status : Nat
  body : Option JVal

/-- One resolution attempt's upstream behaviour: the responses the remote
side gives to the resolver's requests, `none` modelling a transport failure
(a raised `requests` exception). The step-3 handshake response only feeds
extra HTTP headers, which do not alter the control flow modelled here, so
it needs no field. -/
structure VerintEnv where
  page : Option PageResp
  listResp : Option ApiResp
  imageResp : Option ApiResp

/-- Network requests `fetch_verint_image` can attempt, in protocol order. -/
inductive ReqStep where
  | pageFetch
  | handshake
  | listAttachments
  | download
deriving DecidableEq

/-- Step-4 response handling: the `formdata_filenames` string under `data`,
mirroring the code's `in`-checks (a non-string value takes the code into
its bare `except` and yields the same unresolved outcome). -/
def filenamesOf (body : Option JVal) : Option String :=
  match body with
  | none => none
  | some j =>
    match (j.getField "data").bind (fun d => d.getField "formdata_filenames") with
    | some (JVal.jstr s) => some s
    | _ => none

/-- Step-5 filename selection: strip each entry, skip blank entries, skip
map/thumbnail derivatives (`m.jpg`, `_map.jpg`, `_map.jpeg` suffixes on the
lowercased name), accept the first remaining `.jpg`/`.jpeg`/`.png` name. -/
def selectTarget : List String → Option String
  | [] => none
  | fname0 :: rest =>
    let fname := trimStr fname0
    if fname = "" then selectTarget rest
    else
      let fl := lowerStr fname
      if pyEndsWith fl "m.jpg" || pyEndsWith fl "_map.jpg" || pyEndsWith fl "_map.jpeg" then
        selectTarget rest
      else if pyEndsWith fl ".jpg" || pyEndsWith fl ".jpeg" || pyEndsWith fl ".png" then
        some fname
      else selectTarget rest

/-- Step-6 body handling: on HTTP 200 parse the JSON body, read
`data.txt_file`, cut any data-URI prefix at the comma, base64-decode; every
failure path (raw body, missing fields, malformed base64, non-200 status)
yields `none`, as the code's bare `except` and fall-through do. -/
def unwrapDownload (r_image : ApiResp) : Option (List Nat) :=
  if r_image.status = 200 then
    match r_image.body with
    | none => none
    | some rj =>
      match (rj.getField "data").bind (fun d => d.getField "txt_file") with
      | some (JVal.jstr b64) => unwrapB64 b64.toList
      | _ => none
  else none

/-- Shallow embedding of `fetch_verint_image` as a function of the upstream
environment and the wrapper URL. It returns the value of the Python call
(`some bytes`, or `none` for every `return None` and swallowed exception)
together with the ordered trace of attempted network requests. Header
assembly (user agent, referrer, CSRF header, the authorization header from
the step-3 handshake) does not influence the modelled control flow and is
kept out of the state. -/
def fetch_verint_image (env : VerintEnv) (wrapper_url : String) :
    Option (List Nat) × List ReqStep :=
  match getCaseidParam wrapper_url with
  | none => (none, [])
  | some _url_case_id =>
    match env.page with
    | none => (none, [ReqStep.pageFetch])
    | some r_page =>
      if r_page.status ≠ 200 then (none, [ReqStep.pageFetch])
      else
        match searchFormrefStr r_page.textBody with
        | none => (none, [ReqStep.pageFetch])
        | some _formref =>
          match env.listResp with
          | none =>
              (none, [ReqStep.pageFetch, ReqStep.handshake, ReqStep.listAttachments])
          | some r_list =>
            if r_list.status ≠ 200 then
              (none, [ReqStep.pageFetch, ReqStep.handshake, ReqStep.listAttachments])
            else
              match filenamesOf r_list.body with
              | none =>
                  (none, [ReqStep.pageFetch, ReqStep.handshake, ReqStep.listAttachments])
              | some filename_str =>
                if filename_str = "" then
                  (none, [ReqStep.pageFetch, ReqStep.handshake, ReqStep.listAttachments])
                else
                  match selectTarget (pySplit ';' filename_str) with
                  | none =>
                      (none, [ReqStep.pageFetch, ReqStep.handshake, ReqStep.listAttachments])
                  | some _target_filename =>
                    (env.imageResp.bind unwrapDownload,
                     [ReqStep.pageFetch, ReqStep.handshake, ReqStep.listAttachments,
                      ReqStep.download])

/-! ## The media classifier (`get_image_content`) and the feed loop -/

/-- Result payload of `get_image_content` (its `"url"` / `"bytes"` kinds). -/
inductive MediaContent where
  | url (u : String)
  | bytes (b : List Nat)
deriving DecidableEq

/-- Python truthiness of the media payload, as tested by `if media_content:`
in the feed loop (an empty string or empty byte string is falsy). -/
def MediaContent.truthy : MediaContent → Bool
  | MediaContent.url u => !(u == "")
  | MediaContent.bytes b => !b.isEmpty

/-- Raster-extension test of `get_image_content`: the URL cut at the first
`?` and lowercased, suffix-matched against the known image extensions. -/
def rasterUrlCheck (url : String) : Bool :=
  let clean_url := lowerStr (String.mk ((splitOnChar '?' url.toList).headD []))
  pyEndsWith clean_url ".jpg" || pyEndsWith clean_url ".jpeg" ||
    pyEndsWith clean_url ".png" || pyEndsWith clean_url ".gif" ||
    pyEndsWith clean_url ".webp" || pyEndsWith clean_url ".bmp"

/-- Shallow embedding of `get_image_content`. `envs` gives the upstream
environment per wrapper URL; the returned trace is the resolver's, empty
when no resolution was attempted. The dict shape of `media_url`
(`media_item.get('url')`) is represented by the optional URL itself. -/
def get_image_content (envs : String → VerintEnv) (media_item : Option String) :
    Option MediaContent × List ReqStep :=
  match media_item with
  | none => (none, [])
  | some url =>
    if url = "" then (none, [])
    else if rasterUrlCheck url then (some (MediaContent.url url), [])
    else if strContains (lowerStr url) "caseid" then
      match fetch_verint_image (envs url) url with
      | (some image_bytes, tr) => (some (MediaContent.bytes image_bytes), tr)
      | (none, tr) => (none, tr)
    else (some (MediaContent.url url), [])

/-- Fields of one fetched record consumed by the feed-display loop. -/
structure FeedRow where
  id : String
  status_notes : Option String
  media_url : Option String
  service_subtype : Option String
deriving DecidableEq

/-- Shallow embedding of the feed-display loop (section 8 of `app.py`): a
record is rendered iff its status notes do not contain `duplicate`
case-insensitively and its media reference yields truthy content.
Presentation-only derivations (title, date label, links, column rotation)
are not modelled; an emitted display item is identified with its record. -/
def assembleFeed (envs : String → VerintEnv) (rows : List FeedRow) : List FeedRow :=
  rows.filter fun row =>
    let notes := lowerStr (row.status_notes.getD "")
    if strContains notes "duplicate" then false
    else
      match (get_image_content envs row.media_url).1 with
      | some c => c.truthy
      | none => false

/-! ## The geo-filtered fetch (`get_data`) -/

/-- Abstract versions of the floating-point transcendental operations used
by the haversine helper (`math.sin`, `math.cos`, `math.sqrt`, `math.atan2`
and the constant π of `math.radians`). Keeping them abstract over `ℚ`
embeds the arithmetic structure of the Python code without committing to
float semantics. -/
structure FloatOps where
  sin : ℚ → ℚ
  cos : ℚ → ℚ
  sqrt : ℚ → ℚ
  atan2 : ℚ → ℚ → ℚ
  pi : ℚ

/-- A fixed point of interest of the static `sites` configuration. -/
structure MonitoredSite where
  name : String
  short_name : String
  address : String
  lat : ℚ
  lon : ℚ

/-- The three monitored TODCO sites. -/
def sites : List MonitoredSite :=
  [{ name := "Knox SRO", short_name := "Knox", address := "241 6th Street",
     lat := 37.77947681979851, lon := -122.40646722115551 },
   { name := "Bayanihan House", short_name := "Bayanihan", address := "88 6th Street",
     lat := 37.78092868326207, lon := -122.40917338372577 },
   { name := "Hotel Isabel", short_name := "Isabel", address := "1095 Mission Street",
     lat := 37.779230374811554, lon := -122.4107826194545 }]

/-- The Geo-Filter radius (`radius_meters = 48.8`). -/
def radius_meters : ℚ := 48.8

/-- One haversine evaluation of `get_min_distance_to_any_site`
(`math.radians` is multiplication by π/180, Earth radius 6371000 m). -/
def haversineDist (ops : FloatOps) (lat1 lon1 lat2 lon2 : ℚ) : ℚ :=
  let rlat1 := lat1 * ops.pi / 180
  let rlat2 := lat2 * ops.pi / 180
  let rlon1 := lon1 * ops.pi / 180
  let rlon2 := lon2 * ops.pi / 180
  let dphi := rlat2 - rlat1
  let dlambda := rlon2 - rlon1
  let a := ops.sin (dphi / 2) ^ 2 + ops.cos rlat1 * ops.cos rlat2 * ops.sin (dlambda / 2) ^ 2
  let c := 2 * ops.atan2 (ops.sqrt a) (ops.sqrt (1 - a))
  6371000 * c

/-- Model of `get_min_distance_to_any_site`: the running-minimum loop over
the (nonempty) site list; the `[]` branch is unreachable for the fixed
three-site configuration. -/
def get_min_distance_to_any_site (ops : FloatOps) (row_lat row_lon : ℚ) : ℚ :=
  match sites.map (fun s => haversineDist ops s.lat s.lon row_lat row_lon) with
  | [] => 0
  | d :: ds => ds.foldl min d

/-- Coordinates of one upstream record (each returned record carries a
point, which the server-side `within_circle` predicate requires). -/
structure DataRow where
  id : String
  lat : ℚ
  lon : ℚ
deriving DecidableEq

/-- Shallow embedding of the post-processing in `get_data`: on an HTTP 200
upstream response every returned record is re-validated against the
configured radius and kept only when its minimum distance to the monitored
sites does not exceed it; any other status yields the empty frame, as does
the `except` clause. -/
def get_data (ops : FloatOps) (status : Nat) (rows : List DataRow) : List DataRow :=
  if status = 200 then
    rows.filter fun r => get_min_distance_to_any_site ops r.lat r.lon ≤ radius_meters
  else []

example : getCaseidParam "https://x.example/page?foo=1&caseid=abc" = some "abc" := by decide

example : getCaseidParam "https://x.example/caseid-page" = none := by decide

example : searchFormrefStr "<script>var d = \x7b\"formref\" : \"FRM123\"\x7d;</script>" =
    some "FRM123" := by decide

example : searchFormrefStr "<html>no secrets here</html>" = none := by decide

example : searchCsrfStr "<meta name=\"_csrf_token\" content=\"tok9\">" = some "tok9" := by
  decide

example : selectTarget ["IMG_001M.jpg", "site_map.jpg", "IMG_001.jpg"] =
    some "IMG_001.jpg" := by decide

example : rasterUrlCheck "https://x.example/photo.JPG?x=1" = true := by decide

/-! ## Helper lemmas about the resolver's control flow -/

/-- Without a `caseid` query parameter the resolver returns at step A,
before any network request. -/
theorem fetch_no_caseid (env : VerintEnv) (url : String)
    (h : getCaseidParam url = none) :
    fetch_verint_image env url = (none, []) := by
  simp [fetch_verint_image, h]

/-- A page response with a status other than 200 stops the resolver after
the single page request. -/
theorem fetch_page_status (env : VerintEnv) (url cid : String) (page : PageResp)
    (hc : getCaseidParam url = some cid) (hp : env.page = some page)
    (hs : page.status ≠ 200) :
    fetch_verint_image env url = (none, [ReqStep.pageFetch]) := by
  simp [fetch_verint_image, hc, hp, hs]

/-- A fetched page without a `formref` literal stops the resolver after the
single page request. -/
theorem fetch_no_formref (env : VerintEnv) (url cid : String) (page : PageResp)
    (hc : getCaseidParam url = some cid) (hp : env.page = some page)
    (hs : page.status = 200) (hf : searchFormrefStr page.textBody = none) :
    fetch_verint_image env url = (none, [ReqStep.pageFetch]) := by
  simp [fetch_verint_image, hc, hp, hs, hf]

/-- When steps A–5 all succeed, the resolver's value is exactly the step-6
download unwrap, and all four requests are attempted. -/
theorem fetch_reaches_download (env : VerintEnv) (url cid fr : String)
    (page : PageResp) (r_list : ApiResp) (fnames target : String)
    (hc : getCaseidParam url = some cid) (hp : env.page = some page)
    (hs : page.status = 200) (hf : searchFormrefStr page.textBody = some fr)
    (hl : env.listResp = some r_list) (hls : r_list.status = 200)
    (hfn : filenamesOf r_list.body = some fnames) (hne : fnames ≠ "")
    (hsel : selectTarget (pySplit ';' fnames) = some target) :
    fetch_verint_image env url =
      (env.imageResp.bind unwrapDownload,
       [ReqStep.pageFetch, ReqStep.handshake, ReqStep.listAttachments,
        ReqStep.download]) := by
  simp [fetch_verint_image, hc, hp, hs, hf, hl, hls, hfn, hne, hsel]

/-! ## Helper lemmas about the classifier and the feed loop -/

/-- A reference with a raster extension classifies as a direct URL with no
resolver request. -/
theorem gic_raster (envs : String → VerintEnv) (url : String)
    (h : rasterUrlCheck url = true) :
    get_image_content envs (some url) = (some (MediaContent.url url), []) := by
  have hne : ¬ (url = "") := by
    intro he
    subst he
    exact absurd h (by decide)
  simp [get_image_content, hne, h]

/-- A reference that is neither raster-suffixed nor `caseid`-marked is
returned unchanged as the fallback, with no resolver request. -/
theorem gic_fallback (envs : String → VerintEnv) (url : String)
    (hne : url ≠ "") (hr : rasterUrlCheck url = false)
    (hcid : strContains (lowerStr url) "caseid" = false) :
    get_image_content envs (some url) = (some (MediaContent.url url), []) := by
  simp [get_image_content, hne, hr, hcid]

/-- A `caseid`-marked reference whose resolution fails classifies to no
content, with the resolver's trace. -/
theorem gic_unresolved (envs : String → VerintEnv) (url : String) (tr : List ReqStep)
    (hne : url ≠ "") (hr : rasterUrlCheck url = false)
    (hcid : strContains (lowerStr url) "caseid" = true)
    (hfe : fetch_verint_image (envs url) url = (none, tr)) :
    get_image_content envs (some url) = (none, tr) := by
  simp [get_image_content, hne, hr, hcid, hfe]

/-- A record whose status notes carry a `duplicate` marker never appears in
the assembled feed. -/
theorem assembleFeed_not_mem_dup (envs : String → VerintEnv) (rows : List FeedRow)
    (row : FeedRow)
    (hd : strContains (lowerStr (row.status_notes.getD "")) "duplicate" = true) :
    row ∉ assembleFeed envs rows := by
  intro hmem
  rw [assembleFeed, List.mem_filter] at hmem
  have h2 := hmem.2
  simp only [hd, if_true] at h2
  exact absurd h2 (by decide)

/-- A record whose media reference yields no content never appears in the
assembled feed. -/
theorem assembleFeed_not_mem_unresolved (envs : String → VerintEnv)
    (rows : List FeedRow) (row : FeedRow)
    (hm : (get_image_content envs row.media_url).1 = none) :
    row ∉ assembleFeed envs rows := by
  intro hmem
  rw [assembleFeed, List.mem_filter] at hmem
  have h2 := hmem.2
  simp only [hm] at h2
  rcases hsc : strContains (lowerStr (row.status_notes.getD "")) "duplicate" with _ | _ <;>
    simp [hsc] at h2

/-! ## Concrete environments and inputs used in the claim instances -/

/-- A wrapper URL carrying a `caseid` query parameter. -/
def wrapperUrl : String := "https://f.example/page?caseid=501"

/-- A wrapper page embedding a `formref` literal and no CSRF meta tag. -/
def pageOk : PageResp :=
  { status := 200, finalUrl := "https://f.example/page",
    textBody := "<script>var cfg = \"formref\" : \"FORM_X\" ;</script>" }

/-- A step-4 listing with one eligible filename. -/
def listOk : ApiResp :=
  { status := 200,
    body := some (JVal.jobj [("data", JVal.jobj
      [("formdata_filenames", JVal.jstr "IMG_1.jpg")])]) }

/-- The step-6 payload carried by `envJsonDownload`. -/
def envelopeBytes : List Nat := [255, 216, 255]

/-- A step-6 response in the JSON-envelope shape with payload string `s`. -/
def envelopeResp (s : String) : ApiResp :=
  { status := 200,
    body := some (JVal.jobj [("data", JVal.jobj [("txt_file", JVal.jstr s)])]) }

/-- An environment whose download response is the JSON envelope shape. -/
def envJsonDownload : VerintEnv :=
  { page := some pageOk, listResp := some listOk,
    imageResp := some (envelopeResp (String.mk ("data:image/jpeg;base64".toList ++
      ',' :: b64encode envelopeBytes))) }

/-- An environment whose download response is 200 with a raw binary body
(one `Response.json()` cannot parse). -/
def envRawDownload : VerintEnv :=
  { page := some pageOk, listResp := some listOk,
    imageResp := some { status := 200, body := none } }

/-- An environment whose page fetch returns HTTP 404. -/
def env404 : VerintEnv :=
  { page := some
      { status := 404, finalUrl := "https://f.example/page",
        textBody := "not found" },
    listResp := none, imageResp := none }

/-- A fetched page without any `formref` literal. -/
def pageNoFormref : PageResp :=
  { status := 200, finalUrl := "https://f.example/nf",
    textBody := "<html><body>plain page</body></html>" }

/-- An environment whose page carries no `formref`. -/
def envNoFormref : VerintEnv :=
  { page := some pageNoFormref, listResp := none, imageResp := none }

/-- A step-4 listing whose filenames are all thumbnail or map derivatives. -/
def listNoEligible : ApiResp :=
  { status := 200,
    body := some (JVal.jobj [("data", JVal.jobj
      [("formdata_filenames", JVal.jstr "IMG_001M.jpg;site_map.jpg")])]) }

/-- An environment reaching step 5 with no eligible filename. -/
def envNoEligible : VerintEnv :=
  { page := some pageOk, listResp := some listNoEligible, imageResp := none }

/-- A step-4 listing whose only filename carries a raster extension the
step-5 loop does not accept. -/
def listGifOnly : ApiResp :=
  { status := 200,
    body := some (JVal.jobj [("data", JVal.jobj
      [("formdata_filenames", JVal.jstr "photo.gif")])]) }

/-- An environment reaching step 5 with only `photo.gif` on offer. -/
def envGifOnly : VerintEnv :=
  { page := some pageOk, listResp := some listGifOnly, imageResp := none }

/-- An environment with no reachable upstream at all. -/
def envAbsent : VerintEnv := { page := none, listResp := none, imageResp := none }

/-- Concrete transcendental operations making every haversine evaluation
equal to 200 m (the claims' far-away record). -/
def opsW : FloatOps :=
  { sin := fun _ => 0, cos := fun _ => 0, sqrt := fun _ => 0,
    atan2 := fun _ _ => 100 / 6371000, pi := 0 }

/-- The record `A` of the duplicate-exclusion scenario. -/
def rowDupA : FeedRow :=
  { id := "A", status_notes := some "duplicate of B", media_url := none,
    service_subtype := some "duplicate_case" }

/-- The record `B` of the duplicate-exclusion scenario. -/
def rowB : FeedRow :=
  { id := "B", status_notes := none, media_url := some "https://x/img.jpg",
    service_subtype := some "graffiti" }

/-- Eligibility test on one (already stripped) filename, in the order of
the step-5 loop's tests. -/
def eligibleFilename (f : String) : Bool :=
  if f = "" then false
  else if pyEndsWith (lowerStr f) "m.jpg" || pyEndsWith (lowerStr f) "_map.jpg" ||
      pyEndsWith (lowerStr f) "_map.jpeg" then false
  else pyEndsWith (lowerStr f) ".jpg" || pyEndsWith (lowerStr f) ".jpeg" ||
      pyEndsWith (lowerStr f) ".png"

/-- The full success run of `envJsonDownload` (also exercising that the
missing CSRF token does not block resolution). -/
theorem envJsonDownload_success :
    fetch_verint_image envJsonDownload wrapperUrl =
      (some envelopeBytes,
       [ReqStep.pageFetch, ReqStep.handshake, ReqStep.listAttachments,
        ReqStep.download]) := by decide

/-- A feed record carrying only a media reference. -/
def rowWith (url : String) : FeedRow :=
  { id := "r", status_notes := none, media_url := some url,
    service_subtype := none }

/-! ## Claim theorems -/

/-- C1: every record returned by the upstream query is re-validated in
`get_data` with the haversine Geo-Filter at the configured radius 48.8 m,
and a record whose minimum distance to every monitored site exceeds the
radius — in particular one 200 m from the nearest site — is dropped from
the returned sequence whatever the upstream spatial predicate admitted. -/
theorem geo_refilter_drops_far_records (ops : FloatOps) (status : Nat)
    (rows : List DataRow) (r : DataRow)
    (h : radius_meters < get_min_distance_to_any_site ops r.lat r.lon) :
    r ∉ get_data ops status rows := by
  intro hmem
  rw [get_data] at hmem
  by_cases hs : status = 200
  · rw [if_pos hs, List.mem_filter] at hmem
    have h2 := hmem.2
    simp only [decide_eq_true_eq] at h2
    exact absurd h2 (not_le.mpr h)
  · rw [if_neg hs] at hmem
    exact absurd hmem (List.not_mem_nil r)

/-- Under `opsW` every record is computed to be exactly 200 m away. -/
theorem minDist_opsW : get_min_distance_to_any_site opsW 0 0 = 200 := by
  simp only [get_min_distance_to_any_site, sites, haversineDist, opsW, List.map]
  norm_num

/-- Witness for C1: a record whose minimum haversine distance evaluates to
200 m is excluded from the frame of an HTTP 200 fetch that returned it. -/
theorem geo_refilter_drops_far_records_witness :
    radius_meters < get_min_distance_to_any_site opsW 0 0 ∧
      ({ id := "far", lat := 0, lon := 0 } : DataRow) ∉
        get_data opsW 200 [{ id := "far", lat := 0, lon := 0 }] := by
  have hlt : radius_meters < get_min_distance_to_any_site opsW 0 0 := by
    rw [minDist_opsW, radius_meters]
    norm_num
  exact ⟨hlt,
    geo_refilter_drops_far_records opsW 200 [{ id := "far", lat := 0, lon := 0 }]
      { id := "far", lat := 0, lon := 0 } hlt⟩

/-- C3: a step-1 page fetch with a non-2xx status (for example HTTP 404)
makes `fetch_verint_image` return Unresolved with only the single page
request attempted — steps 2 to 6 never run. -/
theorem page_non2xx_short_circuits (env : VerintEnv) (url cid : String)
    (page : PageResp)
    (hc : getCaseidParam url = some cid) (hp : env.page = some page)
    (hnon2xx : ¬ (200 ≤ page.status ∧ page.status < 300)) :
    fetch_verint_image env url = (none, [ReqStep.pageFetch]) :=
  fetch_page_status env url cid page hc hp (by omega)

/-- Witness for C3: an HTTP 404 page response resolves to Unresolved after
the page request alone. -/
theorem page_non2xx_short_circuits_witness :
    fetch_verint_image env404 wrapperUrl = (none, [ReqStep.pageFetch]) :=
  page_non2xx_short_circuits env404 wrapperUrl "501"
    { status := 404, finalUrl := "https://f.example/page", textBody := "not found" }
    (by decide) rfl (by decide)

/-- C6: a media reference whose path before the query string ends,
case-insensitively, in one of the six raster extensions classifies as the
unchanged direct URL, with no resolver request. -/
theorem direct_image_classification (envs : String → VerintEnv) (url : String)
    (h : rasterUrlCheck url = true) :
    get_image_content envs (some url) = (some (MediaContent.url url), []) :=
  gic_raster envs url h

/-- Witness for C6: `.../photo.JPG?x=1` classifies as a direct image. -/
theorem direct_image_classification_witness :
    rasterUrlCheck "https://x.example/photo.JPG?x=1" = true ∧
      get_image_content (fun _ => envAbsent) (some "https://x.example/photo.JPG?x=1") =
        (some (MediaContent.url "https://x.example/photo.JPG?x=1"), []) :=
  ⟨by decide,
   direct_image_classification (fun _ => envAbsent) "https://x.example/photo.JPG?x=1"
     (by decide)⟩

/-- C7 counterexample: the URL `https://mobile311.example/caseid-page` has
no raster extension and no `caseid` query parameter, yet the classifier
does not return it as a DirectUrl fallback — it yields no content at all,
because the substring `caseid` routes it into the resolver. -/
theorem fallback_claim_counterexample :
    rasterUrlCheck "https://mobile311.example/caseid-page" = false ∧
    getCaseidParam "https://mobile311.example/caseid-page" = none ∧
    (get_image_content (fun _ => envAbsent)
      (some "https://mobile311.example/caseid-page")).1 = none := by
  refine ⟨by decide, by decide, by decide⟩

/-- C7 (amended): a media reference that neither ends in a raster-image
extension nor contains the substring `caseid` anywhere (case-insensitively)
is returned as the DirectUrl last-resort fallback rather than dropped. -/
theorem fallback_classification (envs : String → VerintEnv) (url : String)
    (hne : url ≠ "") (hr : rasterUrlCheck url = false)
    (hcid : strContains (lowerStr url) "caseid" = false) :
    get_image_content envs (some url) = (some (MediaContent.url url), []) :=
  gic_fallback envs url hne hr hcid

/-- Witness for the amended C7: a browsable non-image link comes back as
the clickable fallback. -/
theorem fallback_classification_witness :
    get_image_content (fun _ => envAbsent) (some "https://example.org/report") =
      (some (MediaContent.url "https://example.org/report"), []) :=
  fallback_classification (fun _ => envAbsent) "https://example.org/report"
    (by decide) (by decide) (by decide)

/-- C9: for every byte string, a data-URI prefix ending in a comma followed
by the standard base64 encoding of the bytes, unwrapped by the resolver's
split-and-decode logic, reproduces the bytes exactly. -/
theorem base64_unwrap_round_trip (p : List Char) (b : List Nat)
    (hp : ',' ∉ p) (hb : ∀ x ∈ b, x < 256) :
    unwrapB64 (p ++ ',' :: b64encode b) = some b :=
  unwrapB64_encode p b hp hb

/-- Witness for C9: a JPEG-style byte string round-trips through the
data-URI envelope. -/
theorem base64_unwrap_round_trip_witness :
    ',' ∉ "data:image/jpeg;base64".toList ∧
      unwrapB64 ("data:image/jpeg;base64".toList ++ ',' :: b64encode [137, 80, 78, 0]) =
        some [137, 80, 78, 0] :=
  ⟨by decide,
   base64_unwrap_round_trip "data:image/jpeg;base64".toList [137, 80, 78, 0]
     (by decide) (by decide)⟩

/-- C10: a URL routed into the resolver by its `caseid` substring but whose
query string lacks a `caseid` parameter makes `fetch_verint_image` return
Unresolved immediately, before any network request, and the record carrying
it is dropped from the feed instead of being shown as a fallback link. -/
theorem caseid_url_without_param_dropped (envs : String → VerintEnv) (url : String)
    (hcid : strContains (lowerStr url) "caseid" = true)
    (hr : rasterUrlCheck url = false)
    (hparam : getCaseidParam url = none) :
    fetch_verint_image (envs url) url = (none, []) ∧
    get_image_content envs (some url) = (none, []) ∧
    assembleFeed envs [rowWith url] = [] := by
  have hne : url ≠ "" := by
    intro he
    subst he
    exact absurd hcid (by decide)
  have hfe := fetch_no_caseid (envs url) url hparam
  have hg := gic_unresolved envs url [] hne hr hcid hfe
  refine ⟨hfe, hg, ?_⟩
  simp [assembleFeed, rowWith, hg]

/-- Witness for C10: a concrete resolver-routed URL without the parameter
is unresolved requestlessly and absent from the feed. -/
theorem caseid_url_without_param_dropped_witness :
    fetch_verint_image envAbsent "https://m.example/page?caseidx=7" = (none, []) ∧
    get_image_content (fun _ => envAbsent) (some "https://m.example/page?caseidx=7") =
      (none, []) ∧
    assembleFeed (fun _ => envAbsent) [rowWith "https://m.example/page?caseidx=7"] =
      [] :=
  caseid_url_without_param_dropped (fun _ => envAbsent)
    "https://m.example/page?caseidx=7" (by decide) (by decide) (by decide)

/-- C8: every record whose status notes contain `duplicate`
(case-insensitively) is excluded from the assembled feed, and the
two-record scenario with records A (duplicate) and B (graffiti with a
direct image) yields exactly one display item, the one of B. -/
theorem duplicate_records_excluded (envs : String → VerintEnv)
    (rows : List FeedRow) (row : FeedRow)
    (hd : strContains (lowerStr (row.status_notes.getD "")) "duplicate" = true) :
    row ∉ assembleFeed envs rows ∧
      assembleFeed (fun _ => envAbsent) [rowDupA, rowB] = [rowB] :=
  ⟨assembleFeed_not_mem_dup envs rows row hd, by decide⟩

/-- Witness for C8: record A of the scenario carries the duplicate marker
and is indeed not among the assembled items. -/
theorem duplicate_records_excluded_witness :
    strContains (lowerStr (rowDupA.status_notes.getD "")) "duplicate" = true ∧
      rowDupA ∉ assembleFeed (fun _ => envAbsent) [rowDupA, rowB] :=
  ⟨by decide,
   (duplicate_records_excluded (fun _ => envAbsent) [rowDupA, rowB] rowDupA
     (by decide)).1⟩

/-- C4: a fetched wrapper page without an embedded `formref` literal is
fatal — the resolver returns Unresolved after the page request alone —
while a missing CSRF meta-token is non-fatal (the CSRF-less page of
`envJsonDownload` still resolves to bytes through all remaining steps), and
a record whose wrapper page lacks a `formref` is absent from the assembled
feed. -/
theorem missing_formref_fatal (env : VerintEnv) (url cid : String) (page : PageResp)
    (hc : getCaseidParam url = some cid) (hp : env.page = some page)
    (hs : page.status = 200) (hf : searchFormrefStr page.textBody = none) :
    fetch_verint_image env url = (none, [ReqStep.pageFetch]) ∧
    (searchCsrfStr pageOk.textBody = none ∧
      (fetch_verint_image envJsonDownload wrapperUrl).1 = some envelopeBytes) ∧
    (∀ (envs : String → VerintEnv) (rows : List FeedRow) (row : FeedRow),
      row.media_url = some url → envs url = env →
      rasterUrlCheck url = false → strContains (lowerStr url) "caseid" = true →
      row ∉ assembleFeed envs rows) := by
  have hfetch := fetch_no_formref env url cid page hc hp hs hf
  refine ⟨hfetch, ⟨by decide, by rw [envJsonDownload_success]⟩, ?_⟩
  intro envs rows row hm he hr hcid
  apply assembleFeed_not_mem_unresolved envs rows row
  have hne : url ≠ "" := by
    intro h0
    subst h0
    exact absurd hcid (by decide)
  have hfe : fetch_verint_image (envs url) url = (none, [ReqStep.pageFetch]) := by
    rw [he]
    exact hfetch
  rw [hm, gic_unresolved envs url [ReqStep.pageFetch] hne hr hcid hfe]

/-- Witness for C4: the formref-less environment leaves the wrapper record
unresolved and out of the feed. -/
theorem missing_formref_fatal_witness :
    fetch_verint_image envNoFormref wrapperUrl = (none, [ReqStep.pageFetch]) ∧
      rowWith wrapperUrl ∉
        assembleFeed (fun _ => envNoFormref) [rowWith wrapperUrl] := by
  have h := missing_formref_fatal envNoFormref wrapperUrl "501" pageNoFormref
    (by decide) rfl rfl (by decide)
  exact ⟨h.1, h.2.2 (fun _ => envNoFormref) _ _ rfl rfl (by decide) (by decide)⟩

/-- Step-5 selection equals the first stripped entry passing the
eligibility test. -/
theorem selectTarget_eq_find : ∀ files : List String,
    selectTarget files = (files.map trimStr).find? eligibleFilename := by
  intro files
  induction files with
  | nil => rfl
  | cons f rest ih =>
    have hsel : selectTarget (f :: rest) =
        if trimStr f = "" then selectTarget rest
        else if pyEndsWith (lowerStr (trimStr f)) "m.jpg" ||
            pyEndsWith (lowerStr (trimStr f)) "_map.jpg" ||
            pyEndsWith (lowerStr (trimStr f)) "_map.jpeg" then selectTarget rest
        else if pyEndsWith (lowerStr (trimStr f)) ".jpg" ||
            pyEndsWith (lowerStr (trimStr f)) ".jpeg" ||
            pyEndsWith (lowerStr (trimStr f)) ".png" then some (trimStr f)
        else selectTarget rest := rfl
    have helig : eligibleFilename (trimStr f) =
        if trimStr f = "" then false
        else if pyEndsWith (lowerStr (trimStr f)) "m.jpg" ||
            pyEndsWith (lowerStr (trimStr f)) "_map.jpg" ||
            pyEndsWith (lowerStr (trimStr f)) "_map.jpeg" then false
        else pyEndsWith (lowerStr (trimStr f)) ".jpg" ||
            pyEndsWith (lowerStr (trimStr f)) ".jpeg" ||
            pyEndsWith (lowerStr (trimStr f)) ".png" := rfl
    rw [List.map_cons, hsel]
    by_cases h1 : trimStr f = ""
    · have hneg : ¬ (eligibleFilename (trimStr f) = true) := by
        rw [helig, if_pos h1]
        simp
      rw [if_pos h1, List.find?_cons_of_neg _ hneg, ih]
    · rw [if_neg h1]
      by_cases h2 : (pyEndsWith (lowerStr (trimStr f)) "m.jpg" ||
          pyEndsWith (lowerStr (trimStr f)) "_map.jpg" ||
          pyEndsWith (lowerStr (trimStr f)) "_map.jpeg") = true
      · have hneg : ¬ (eligibleFilename (trimStr f) = true) := by
          rw [helig, if_neg h1, if_pos h2]
          simp
        rw [if_pos h2, List.find?_cons_of_neg _ hneg, ih]
      · rw [if_neg h2]
        by_cases h3 : (pyEndsWith (lowerStr (trimStr f)) ".jpg" ||
            pyEndsWith (lowerStr (trimStr f)) ".jpeg" ||
            pyEndsWith (lowerStr (trimStr f)) ".png") = true
        · have hpos : eligibleFilename (trimStr f) = true := by
            rw [helig, if_neg h1, if_neg h2]
            exact h3
          rw [if_pos h3, List.find?_cons_of_pos _ hpos]
        · have hneg : ¬ (eligibleFilename (trimStr f) = true) := by
            rw [helig, if_neg h1, if_neg h2]
            exact h3
          rw [if_neg h3, List.find?_cons_of_neg _ hneg, ih]

/-- C5 counterexample: the claimed selection rule fails on the code —
`IMG_001M.jpeg`, a single-letter-plus-extension thumbnail name the claim
says must be skipped, is selected (only the `m.jpg`, `_map.jpg` and
`_map.jpeg` suffixes are skipped), while `photo.gif`, a raster-image
extension by the specification's own enumeration, is never accepted and
leaves resolution Unresolved. -/
theorem claimed_selection_rule_counterexample :
    selectTarget ["IMG_001M.jpeg"] = some "IMG_001M.jpeg" ∧
    selectTarget ["photo.gif"] = none ∧
    fetch_verint_image envGifOnly wrapperUrl =
      (none, [ReqStep.pageFetch, ReqStep.handshake, ReqStep.listAttachments]) := by
  refine ⟨by decide, by decide, by decide⟩

/-- C5 (amended): step-5 filename selection parses the semicolon-delimited
list and picks the first stripped entry that ends, case-insensitively, in
`.jpg`, `.jpeg` or `.png` and is not suffixed `m.jpg`, `_map.jpg` or
`_map.jpeg`; the three-name example rejects `IMG_001M.jpg` and
`site_map.jpg` and selects `IMG_001.jpg`; and with no such filename
resolution returns Unresolved (no download request attempted). -/
theorem filename_selection (files : List String) :
    selectTarget files = (files.map trimStr).find? eligibleFilename ∧
    selectTarget ["IMG_001M.jpg", "site_map.jpg", "IMG_001.jpg"] =
      some "IMG_001.jpg" ∧
    fetch_verint_image envNoEligible wrapperUrl =
      (none, [ReqStep.pageFetch, ReqStep.handshake, ReqStep.listAttachments]) :=
  ⟨selectTarget_eq_find files, by decide, by decide⟩

/-- C2 counterexample: with every earlier step succeeding, a 200
download_attachment response whose HTTP body is the raw binary content
directly (no JSON envelope) yields Unresolved — the decoded image bytes are
not returned in this observed response shape. -/
theorem raw_binary_download_unresolved :
    envRawDownload.imageResp = some { status := 200, body := none } ∧
    fetch_verint_image envRawDownload wrapperUrl =
      (none, [ReqStep.pageFetch, ReqStep.handshake, ReqStep.listAttachments,
        ReqStep.download]) :=
  ⟨rfl, by decide⟩

/-- C2 (amended): for a successful (HTTP 200) step-6 download_attachment
response the resolver returns the decoded image bytes only in the
JSON-envelope shape — a base64 payload in `data.txt_file` with any data-URI
prefix stripped at the comma — while a raw binary body, any decode failure,
and any non-2xx status yield Unresolved. -/
theorem download_unwrap_behaviour (env : VerintEnv) (url cid fr : String)
    (page : PageResp) (r_list : ApiResp) (fnames target : String)
    (hc : getCaseidParam url = some cid) (hp : env.page = some page)
    (hs : page.status = 200) (hf : searchFormrefStr page.textBody = some fr)
    (hl : env.listResp = some r_list) (hls : r_list.status = 200)
    (hfn : filenamesOf r_list.body = some fnames) (hne : fnames ≠ "")
    (hsel : selectTarget (pySplit ';' fnames) = some target) :
    (fetch_verint_image env url).1 = env.imageResp.bind unwrapDownload ∧
    (∀ (p : List Char) (b : List Nat), ',' ∉ p → (∀ x ∈ b, x < 256) →
      unwrapDownload (envelopeResp (String.mk (p ++ ',' :: b64encode b))) =
        some b) ∧
    unwrapDownload { status := 200, body := none } = none ∧
    (∀ (st : Nat) (body : Option JVal), st ≠ 200 →
      unwrapDownload { status := st, body := body } = none) := by
  refine ⟨?_, ?_, rfl, ?_⟩
  · rw [fetch_reaches_download env url cid fr page r_list fnames target hc hp hs hf
      hl hls hfn hne hsel]
  · intro p b hpc hb
    show unwrapB64 (String.mk (p ++ ',' :: b64encode b)).toList = some b
    exact unwrapB64_encode p b hpc hb
  · intro st body hst
    simp [unwrapDownload, hst]

/-- Witness for the amended C2: the JSON-envelope environment resolves to
exactly the encoded bytes. -/
theorem download_unwrap_behaviour_witness :
    (fetch_verint_image envJsonDownload wrapperUrl).1 = some envelopeBytes := by
  have h := download_unwrap_behaviour envJsonDownload wrapperUrl "501" "FORM_X"
    pageOk listOk "IMG_1.jpg" "IMG_1.jpg" (by decide) rfl rfl (by decide) rfl rfl
    (by decide) (by decide) (by decide)
  have h2 := h.2.1 "data:image/jpeg;base64".toList envelopeBytes (by decide) (by decide)
  exact h.1.trans h2
